import Mathlib

set_option maxRecDepth 8000

/-!
Verification of the letsdebug core: the CAA Authorization Evaluator
(`generic.go`) and the Validation-Fetch Simulator (`checkHTTP` and its
redirect policy).  The Go code is shallowly embedded: pure string
manipulation becomes Lean functions on `String`/`List Char`, the DNS and
public-suffix collaborators become function parameters, and the network
side of the HTTP client becomes an explicit outcome value.
-/

/-! ## Go string primitives used by the source -/

/-- Splits a character list at the first occurrence of `c`: returns the
characters before it and the characters after it, or `none` when `c` does
not occur.  This is the single-separator core of Go's
`strings.SplitN(s, sep, 2)`. -/
def breakAtFirst (c : Char) : List Char → Option (List Char × List Char)
  | [] => none
  | x :: xs =>
    if x = c then some ([], xs)
    else
      match breakAtFirst c xs with
      | none => none
      | some (pre, post) => (x :: pre, post)

/-- Go's `strings.SplitN(s, sep, 2)` for a one-character separator: one
element when the separator is absent, two elements (before / after the
first separator) when present. -/
def goSplitN2 (s : String) (c : Char) : List String :=
  match breakAtFirst c s.toList with
  | none => [s]
  | some (pre, post) => [String.mk pre, String.mk post]

/-- First element of a list, or the given default for an empty list.
`goSplitN2` never returns an empty list, so the default is immaterial when
this models Go's `xs[0]`. -/
def headOr : List String → String → String
  | [], d => d
  | x :: _, _ => x

/-- Go's `strings.Trim(s, cutset)`: removes leading and trailing characters
belonging to `cutset`. -/
def goTrimChars (cutset : List Char) (s : String) : String :=
  String.mk (((s.toList.dropWhile (cutset.contains ·)).reverse.dropWhile
    (cutset.contains ·)).reverse)

/-- Go's `strings.HasSuffix(s, suf)`. -/
def goHasSuffix (s suf : String) : Bool :=
  suf.toList.isSuffixOf s.toList

/-- Go's `strings.ToLower` (ASCII letters; all inputs exercised here are
ASCII scheme names). -/
def goToLower (s : String) : String :=
  String.mk (s.toList.map Char.toLower)

/-- Value returned by Go's `strconv.Atoi` when its error is discarded:
the parsed integer for an optionally signed decimal string, `0` on a
syntax error. -/
def goAtoi (s : String) : Int :=
  let l := s.toList
  let sd : Int × List Char :=
    match l with
    | '+' :: rest => (1, rest)
    | '-' :: rest => (-1, rest)
    | _ => (1, l)
  if sd.2 ≠ [] ∧ sd.2.all (·.isDigit) then
    sd.1 * ((sd.2.foldl (fun acc ch => acc * 10 + (ch.toNat - 48)) 0 : Nat) : Int)
  else 0

/-- Rendering of a Go `bool` by `fmt.Sprintf("%t", b)`. -/
def goBool (b : Bool) : String :=
  if b then "true" else "false"

/-- Strips the leading `*.` wildcard marker, as in lines 17-21 of
`generic.go`; returns whether the marker was present together with the
remaining domain. -/
def stripWildcard (domain : String) : Bool × String :=
  match domain.toList with
  | '*' :: '.' :: rest => (true, String.mk rest)
  | _ => (false, domain)

/-! ## Data model shared by both checkers -/

/-- Modelled from the spec: `SeverityFatal` is defined outside the provided
sources; the spec's ordered severity enumeration is represented by severity
names. -/
def SeverityFatal : String := "Fatal"

/-- Modelled from the spec: `SeverityError`, defined outside the provided
sources. -/
def SeverityError : String := "Error"

/-- Modelled from the spec: `SeverityWarning`, defined outside the provided
sources. -/
def SeverityWarning : String := "Warning"

/-- The diagnostic report type produced by both checkers. -/
structure Problem where
  Name : String
  Explanation : String
  Detail : String
  Severity : String
deriving DecidableEq, Repr

/-- The zero value `Problem{}` returned by `checkHTTP` on success. -/
def emptyProblem : Problem :=
  { Name := "", Explanation := "", Detail := "", Severity := "" }

/-- A CAA resource record as delivered by the DNS collaborator
(`github.com/miekg/dns`): flag octet, tag, value, and the textual
rendering its `String()` method produces (opaque to this repository). -/
structure CAA where
  Flag : Nat
  Tag : String
  Value : String
  Str : String
deriving DecidableEq, Repr

/-- A resource record returned by the lookup collaborator: either a CAA
record (the type assertion `rr.(*dns.CAA)` succeeds) or some other record
(the assertion fails and the record is skipped). -/
inductive RR where
  | caa (r : CAA)
  | other (s : String)
deriving DecidableEq, Repr

/-- `collateRecords` (generic.go lines 103-109): joins the library
renderings of the records with newlines. -/
def collateRecords (records : List CAA) : String :=
  String.intercalate "\n" (records.map (·.Str))

/-- `caaCriticalUnknown` (generic.go lines 111-119). -/
def caaCriticalUnknown (domain : String) (wildcard : Bool) (records : List CAA) : Problem :=
  { Name := "CaaCriticalUnknown"
  , Explanation := "CAA record(s) exist on " ++ domain ++ " (wildcard=" ++ goBool wildcard
      ++ ") that are marked as critical but are unknown to Let's Encrypt. "
      ++ "These record(s) as shown in the detail must be removed, or marked as non-critical, "
      ++ "before a certificate can be issued by the Let's Encrypt CA."
  , Detail := collateRecords records
  , Severity := SeverityFatal }

/-- `caaIssuanceNotAllowed` (generic.go lines 121-130). -/
def caaIssuanceNotAllowed (domain : String) (wildcard : Bool) (records : List CAA) : Problem :=
  { Name := "CaaIssuanceNotAllowed"
  , Explanation := "No CAA record on " ++ domain ++ " (wildcard=" ++ goBool wildcard
      ++ ") contains the issuance domain \"letsencrypt.org\". "
      ++ "You must either add an additional record to include \"letsencrypt.org\" "
      ++ "or remove every existing CAA record. "
      ++ "A list of the CAA records are provided in the details."
  , Detail := collateRecords records
  , Severity := SeverityFatal }

/-- Modelled from the spec: `dnsLookupFailed` is defined outside the
provided sources.  Per the spec, a lookup failure "is reported as a
DNS-lookup-failed diagnostic"; the record type name and the raw lookup
error are carried as evidence.  Field contents beyond that are
representative. -/
def dnsLookupFailed (domain rrType errText : String) : Problem :=
  { Name := "DNSLookupFailed"
  , Explanation := "A DNS problem prevented the " ++ rrType ++ " lookup for " ++ domain
      ++ " from completing."
  , Detail := errText
  , Severity := SeverityWarning }

/-! ## CAA Authorization Evaluator (generic.go) -/

/-- `extractIssuerDomain` (generic.go lines 97-101): the text before the
first `;`, trimmed of spaces and tabs. -/
def extractIssuerDomain (value : String) : String :=
  goTrimChars [' ', '\t'] (headOr (goSplitN2 value ';') value)

/-- The record-classification loop of `caaChecker.Check` (generic.go lines
30-54): partitions the CAA records among the `issue` set, the `issuewild`
set and the unrecognized-critical set (`iodef` and non-CAA records are
skipped; an unknown tag is collected only when `Flag == 1`).  Record order
is preserved, as in the Go loop. -/
def classifyRecords : List RR → List CAA × List CAA × List CAA
  | [] => ([], [], [])
  | rr :: rest =>
    let acc := classifyRecords rest
    match rr with
    | RR.other _ => acc
    | RR.caa r =>
      if r.Tag = "issue" then (r :: acc.1, acc.2.1, acc.2.2)
      else if r.Tag = "issuewild" then (acc.1, r :: acc.2.1, acc.2.2)
      else if r.Tag = "iodef" then acc
      else if r.Flag = 1 then (acc.1, acc.2.1, r :: acc.2.2)
      else acc

/-- Selector for the `issue` arm of the classification switch. -/
def issueOf : RR → Option CAA
  | RR.caa r => if r.Tag = "issue" then some r else none
  | RR.other _ => none

/-- Selector for the `issuewild` arm of the classification switch. -/
def issuewildOf : RR → Option CAA
  | RR.caa r => if r.Tag = "issuewild" then some r else none
  | RR.other _ => none

/-- Selector for the default arm of the classification switch: an unknown
tag collected exactly when `Flag == 1`. -/
def criticalUnknownOf : RR → Option CAA
  | RR.caa r =>
    if r.Tag ≠ "issue" ∧ r.Tag ≠ "issuewild" ∧ r.Tag ≠ "iodef" ∧ r.Flag = 1
    then some r else none
  | RR.other _ => none

/-- The terminal-level evaluation of `caaChecker.Check` (generic.go lines
30-79), reached when the lookup returned at least one record: critical
unknown tags block everything; a non-wildcard query with an empty `issue`
set is unrestricted; otherwise the `issuewild` set overrides `issue` for
wildcard queries and issuance requires some record whose issuer domain is
exactly `letsencrypt.org`. -/
def terminalCheck (domain : String) (wildcard : Bool) (rrs : List RR) : List Problem :=
  let cls := classifyRecords rrs
  let issue := cls.1
  let issuewild := cls.2.1
  let criticalUnknown := cls.2.2
  if criticalUnknown ≠ [] then [caaCriticalUnknown domain wildcard criticalUnknown]
  else if issue = [] ∧ wildcard = false then []
  else
    let records := if wildcard = true ∧ issuewild ≠ [] then issuewild else issue
    if records.any (fun r => extractIssuerDomain r.Value == "letsencrypt.org") then []
    else [caaIssuanceNotAllowed domain wildcard records]

/-- Fuel-indexed embedding of `caaChecker.Check` (generic.go lines 14-95).
The DNS collaborator is `lookup` (CAA lookups only); the public-suffix
collaborator is `ps`.  The result is `some (problems, evaluatorError)`
mirroring the Go `([]Problem, error)` pair; `none` marks a run the Go code
cannot complete (the `splitDomain[1]` index panic on a dotless domain whose
public suffix differs from itself, or exhausted fuel — the wrapper `Check`
below always supplies sufficient fuel). -/
def caaChecker.CheckFuel (lookup : String → Except String (List RR))
    (ps : String → String) :
    Nat → String → String → Option (List Problem × Option String)
  | 0, _, _ => none
  | fuel + 1, domain, method =>
    let wd := stripWildcard domain
    let wildcard := wd.1
    let dom := wd.2
    match lookup dom with
    | Except.error e => some ([dnsLookupFailed dom "CAA" e], none)
    | Except.ok rrs =>
      if 0 < rrs.length then
        some (terminalCheck dom wildcard rrs, none)
      else if dom = ps dom then some ([], none)
      else
        match breakAtFirst '.' dom.toList with
        | none => none
        | some (_, rest) =>
          match caaChecker.CheckFuel lookup ps fuel (String.mk rest) method with
          | none => none
          | some (_, some e) =>
            some ([], some ("error checking caa record on domain: "
              ++ String.mk rest ++ ", " ++ e))
          | some (parentProbs, none) => some (parentProbs, none)

/-- `caaChecker.Check`: the fuel wrapper.  Each recursion step drops at
least one character from the domain, so `domain.length + 1` steps always
suffice. -/
def caaChecker.Check (lookup : String → Except String (List RR))
    (ps : String → String) (domain method : String) :
    Option (List Problem × Option String) :=
  caaChecker.CheckFuel lookup ps (domain.length + 1) domain method

/-! ## Validation-Fetch Simulator (checkHTTP) -/

/-- A resolved address as the simulator sees it: its textual form
(`address.String()`) and whether it is IPv6 (`address.To4() == nil`). -/
structure IPAddr where
  str : String
  isIPv6 : Bool
deriving DecidableEq, Repr

/-- A redirect-target URL as parsed by the HTTP client from a `Location`
header.  `Scheme` is `req.URL.Scheme`; `Hostname` is `req.URL.Hostname()`
(host without port or brackets); `Port` is `some p` exactly when
`net.SplitHostPort(req.URL.Host)` succeeds with port text `p`; `Str` is the
rendering `req.URL.String()` used in the policy messages. -/
structure URL where
  Scheme : String
  Hostname : String
  Port : Option String
  Str : String
deriving DecidableEq, Repr

/-- The "too many redirects" policy message (part_000 line 68). -/
def tooManyRedirectsMessage (n : Nat) (u : URL) : String :=
  "Too many (" ++ toString n ++ ") redirects, last redirect was to: " ++ u.Str

/-- The bad-port policy message (part_000 line 75). -/
def badPortMessage (u : URL) (p : String) : String :=
  "Bad port number provided when fetching " ++ u.Str ++ ": " ++ p

/-- The bad-scheme policy message (part_000 line 82). -/
def badSchemeMessage (u : URL) (scheme : String) : String :=
  "Bad scheme provided when fetching " ++ u.Str ++ ": " ++ scheme

/-- The trailing-slash-misconfiguration policy message (part_000 lines
88-90). -/
def wellKnownMessage (u : URL) : String :=
  "It appears that a redirect was generated by your web server that is missing a trailing "
    ++ "slash after your domain name: " ++ u.Str
    ++ ". Check your web server configuration and .htaccess for Redirect/RedirectMatch/RewriteRule."

/-- The scheme and hostname checks of the redirect policy (part_000 lines
80-92), reached once the redirect count and port checks pass. -/
def checkRedirectSchemeHost (req : URL) : Option String :=
  let scheme := goToLower req.Scheme
  if scheme ≠ "http" ∧ scheme ≠ "https" then some (badSchemeMessage req scheme)
  else if goHasSuffix req.Hostname (".well-known") then some (wellKnownMessage req)
  else none

/-- The `CheckRedirect` callback of `checkHTTP` (part_000 lines 66-95).
Following the `net/http` contract, `req` is the upcoming redirect target
and `via` is the list of requests already performed, oldest first — the
initial request followed by the previously accepted redirects.  Returns
the policy-violation message stored into `redirErr`, or `none` to accept
the hop. -/
def checkRedirect (req : URL) (via : List URL) : Option String :=
  if 10 ≤ via.length then some (tooManyRedirectsMessage via.length req)
  else
    match req.Port with
    | some p =>
      if goAtoi p ≠ 80 ∧ goAtoi p ≠ 443 then some (badPortMessage req p)
      else checkRedirectSchemeHost req
    | none => checkRedirectSchemeHost req

/-- Models the redirect-following loop of Go's `net/http` client around
`checkRedirect`: `made` holds the requests already performed (oldest
first); each redirect target is submitted to the policy with that list and,
when accepted, appended to it.  Returns the first policy violation, or
`none` when every hop is accepted. -/
def followRedirects (made : List URL) : List URL → Option String
  | [] => none
  | t :: rest =>
    match checkRedirect t made with
    | some e => some e
    | none => followRedirects (made ++ [t]) rest

/-- A full fetch: the initial request followed by the chain of redirect
targets the servers answer with. -/
def runChain (initial : URL) (targets : List URL) : Option String :=
  followRedirects [initial] targets

/-- A redirect target that violates none of the per-hop checks (port,
scheme, hostname): such a hop can only be rejected by the redirect
counter. -/
def isValidHop (u : URL) : Bool :=
  (match u.Port with
   | some p => goAtoi p == 80 || goAtoi p == 443
   | none => true)
  && (goToLower u.Scheme == "http" || goToLower u.Scheme == "https")
  && !(goHasSuffix u.Hostname (".well-known"))

/-- The error value `checkHTTP` inspects after `cl.Do`: either the sentinel
`redirectError` recovered from the enclosing `redirErr` variable, or an
ordinary transport error, identified by its `Error()` text. -/
inductive GoError where
  | redirect (msg : String)
  | transport (msg : String)
deriving DecidableEq, Repr

/-- A response as far as `checkHTTP` reads it: `resp.StatusCode` and
`resp.Header.Get("Server")`. -/
structure HTTPResponse where
  StatusCode : Int
  Server : String
deriving DecidableEq, Repr

/-- `httpCheckResult` (part_000 lines 24-28). -/
structure httpCheckResult where
  StatusCode : Int
  ServerHeader : String
  IP : IPAddr
deriving DecidableEq, Repr

/-- `badRedirect` (part_000 lines 176-185). -/
def badRedirect (domain : String) (errText : String) : Problem :=
  { Name := "BadRedirect"
  , Explanation := "Sending an ACME HTTP validation request to " ++ domain
      ++ " results in an unacceptable redirect. "
      ++ "This is most likely a misconfiguration of your web server or your web application."
  , Detail := errText
  , Severity := SeverityError }

/-- `httpServerMisconfiguration` (part_000 lines 145-152). -/
def httpServerMisconfiguration (domain detail : String) : Problem :=
  { Name := "WebserverMisconfiguration"
  , Explanation := domain ++ "'s webserver may be misconfigured."
  , Detail := detail
  , Severity := SeverityError }

/-- `aaaaNotWorking` (part_000 lines 154-164). -/
def aaaaNotWorking (domain ipv6Address errText : String) : Problem :=
  { Name := "AAAANotWorking"
  , Explanation := domain ++ " has an AAAA (IPv6) record (" ++ ipv6Address
      ++ ") but a test ACME validation request over port 80 has revealed problems. "
      ++ "Let's Encrypt will prefer to use AAAA records, if present, and will not fall back to IPv4 records. "
      ++ "You should either ensure that validation requests succeed over IPv6, or remove its AAAA record."
  , Detail := errText
  , Severity := SeverityError }

/-- `aNotWorking` (part_000 lines 166-174). -/
def aNotWorking (domain addr errText : String) : Problem :=
  { Name := "ANotWorking"
  , Explanation := domain ++ " has an A (IPv4) record (" ++ addr
      ++ ") but a test ACME validation request over port 80 has revealed problems."
  , Detail := errText
  , Severity := SeverityError }

/-- `translateHTTPError` (part_000 lines 128-143): a recovered redirect
policy violation becomes a `BadRedirect` diagnostic with the verbatim
policy message; the HTTPS-to-HTTP protocol-mismatch signature becomes a
webserver-misconfiguration diagnostic; anything else is classified by
address family. -/
def translateHTTPError (domain : String) (address : IPAddr) (e : GoError) : Problem :=
  match e with
  | GoError.redirect msg => badRedirect domain msg
  | GoError.transport msg =>
    if goHasSuffix msg ("http: server gave HTTP response to HTTPS client") then
      httpServerMisconfiguration domain ("Web server is serving the wrong protocol on the wrong port: "
        ++ msg ++ ". This may be due to a previous HTTP redirect rather than a webserver misconfiguration.")
    else if address.isIPv6 then aaaaNotWorking domain address.str msg
    else aNotWorking domain address.str msg

/-- What the HTTP round (`cl.Do` together with the `CheckRedirect`
side channel) produced: the response pointer if any, the error if any (as
its `Error()` text — `cl.Do` never returns the bare sentinel), and the
final value of the enclosing `redirErr` variable (`""` when the policy
never fired). -/
structure DoOutcome where
  resp : Option HTTPResponse
  err : Option String
  redirErr : String
deriving DecidableEq, Repr

/-- `checkHTTP` (part_000 lines 42-126) from the point the HTTP round
completes: the result is seeded with the pinned address, whatever response
exists populates `StatusCode` and `ServerHeader` before the error is
examined, a pending `redirErr` replaces the transport error, and a
remaining error is classified by `translateHTTPError` while the populated
result is still returned.  (The request-construction failure branch at
lines 99-101 precedes the HTTP round and is outside this fragment.) -/
def checkHTTP (domain : String) (address : IPAddr) (outcome : DoOutcome) :
    httpCheckResult × Problem :=
  let checkRes : httpCheckResult := { StatusCode := 0, ServerHeader := "", IP := address }
  let checkRes :=
    match outcome.resp with
    | some r => { checkRes with StatusCode := r.StatusCode, ServerHeader := r.Server }
    | none => checkRes
  match outcome.err with
  | none => (checkRes, emptyProblem)
  | some e =>
    let e' : GoError :=
      if outcome.redirErr ≠ "" then GoError.redirect outcome.redirErr
      else GoError.transport e
    (checkRes, translateHTTPError domain address e')

/-- The chain of lookup names `caaChecker.Check` can visit, starting from a
query domain: the stripped domain itself and, when that name equals its
public suffix or is dotless, nothing further, otherwise the chain of the
parent obtained by dropping the leftmost label. -/
def caaQueryChain (ps : String → String) : Nat → String → List String
  | 0, _ => []
  | fuel + 1, domain =>
    let d := (stripWildcard domain).2
    d :: (if d = ps d then []
      else
        match breakAtFirst '.' d.toList with
        | none => []
        | some (_, rest) => caaQueryChain ps fuel (String.mk rest))

/-! ## Helper lemmas -/

theorem string_mk_length (l : List Char) : (String.mk l).length = l.length := rfl

theorem string_toList_eq (s : String) : s.toList = s.data := rfl

theorem string_length_eq_toList (s : String) : s.length = s.toList.length := rfl

theorem string_mk_toList (s : String) : String.mk s.toList = s := rfl

theorem string_data_append (s t : String) : (s ++ t).data = s.data ++ t.data := rfl

theorem breakAtFirst_eq_none_iff (c : Char) (l : List Char) :
    breakAtFirst c l = none ↔ c ∉ l := by
  induction l with
  | nil => simp [breakAtFirst]
  | cons x xs ih =>
    simp only [breakAtFirst, List.mem_cons]
    by_cases hx : x = c
    · subst hx; simp
    · simp only [if_neg hx]
      cases hbr : breakAtFirst c xs with
      | none =>
        have hxs : c ∉ xs := ih.mp hbr
        simp only [hbr]
        constructor
        · intro _
          rintro (h | h)
          · exact hx h.symm
          · exact hxs h
        · intro _
          trivial
      | some pr =>
        obtain ⟨a, b⟩ := pr
        have hxs : c ∈ xs := by
          by_contra hc
          have hn := ih.mpr hc
          rw [hbr] at hn
          exact Option.noConfusion hn
        simp [hbr, hxs]

theorem breakAtFirst_eq_some (c : Char) :
    ∀ (l pre post : List Char), breakAtFirst c l = some (pre, post) →
      pre = l.takeWhile (fun x => x ≠ c) ∧ l = pre ++ c :: post := by
  intro l
  induction l with
  | nil => intro pre post h; simp [breakAtFirst] at h
  | cons x xs ih =>
    intro pre post h
    simp only [breakAtFirst] at h
    by_cases hx : x = c
    · subst hx
      rw [if_pos rfl] at h
      have h' := Option.some.inj h
      rw [Prod.ext_iff] at h'
      obtain ⟨h1, h2⟩ := h'
      dsimp at h1 h2
      subst h1
      subst h2
      constructor
      · simp
      · simp
    · simp only [if_neg hx] at h
      cases hbr : breakAtFirst c xs with
      | none => rw [hbr] at h; simp at h
      | some pr =>
        obtain ⟨a, b⟩ := pr
        rw [hbr] at h
        have h' := Option.some.inj h
        rw [Prod.ext_iff] at h'
        obtain ⟨h1, h2⟩ := h'
        dsimp at h1 h2
        subst h1
        subst h2
        obtain ⟨ha, hb⟩ := ih a b hbr
        constructor
        · simp [List.takeWhile_cons, hx, ha]
        · simp [← hb]

theorem breakAtFirst_post_length (c : Char) (l pre post : List Char)
    (h : breakAtFirst c l = some (pre, post)) : post.length < l.length := by
  obtain ⟨-, h2⟩ := breakAtFirst_eq_some c l pre post h
  rw [h2]
  simp only [List.length_append, List.length_cons]
  omega

theorem stripWildcard_snd_length (s : String) :
    (stripWildcard s).2.length ≤ s.length := by
  unfold stripWildcard
  split
  · next rest heq =>
    have hs : s.length = s.toList.length := rfl
    rw [hs, heq]
    simp only [string_mk_length, List.length_cons]
    omega
  · exact le_refl _


theorem classifyRecords_eq (rrs : List RR) :
    classifyRecords rrs =
      (rrs.filterMap issueOf, rrs.filterMap issuewildOf, rrs.filterMap criticalUnknownOf) := by
  induction rrs with
  | nil => simp [classifyRecords]
  | cons rr rest ih =>
    cases rr with
    | other s => simp [classifyRecords, issueOf, issuewildOf, criticalUnknownOf, ih]
    | caa r =>
      by_cases h1 : r.Tag = "issue"
      · simp [classifyRecords, issueOf, issuewildOf, criticalUnknownOf, ih, h1]
      · by_cases h2 : r.Tag = "issuewild"
        · simp [classifyRecords, issueOf, issuewildOf, criticalUnknownOf, ih, h1, h2]
        · by_cases h3 : r.Tag = "iodef"
          · simp [classifyRecords, issueOf, issuewildOf, criticalUnknownOf, ih, h1, h2, h3]
          · by_cases h4 : r.Flag = 1
            · simp [classifyRecords, issueOf, issuewildOf, criticalUnknownOf, ih, h1, h2, h3, h4]
            · simp [classifyRecords, issueOf, issuewildOf, criticalUnknownOf, ih, h1, h2, h3, h4]

theorem CheckFuel_lookup_error (lookup : String → Except String (List RR))
    (ps : String → String) (fuel : Nat) (domain method e : String)
    (hl : lookup (stripWildcard domain).2 = Except.error e) :
    caaChecker.CheckFuel lookup ps (fuel + 1) domain method =
      some ([dnsLookupFailed (stripWildcard domain).2 ("CAA") e], none) := by
  simp only [caaChecker.CheckFuel]
  rw [hl]

theorem CheckFuel_terminal (lookup : String → Except String (List RR))
    (ps : String → String) (fuel : Nat) (domain method : String) (rrs : List RR)
    (hl : lookup (stripWildcard domain).2 = Except.ok rrs) (h0 : 0 < rrs.length) :
    caaChecker.CheckFuel lookup ps (fuel + 1) domain method =
      some (terminalCheck (stripWildcard domain).2 (stripWildcard domain).1 rrs, none) := by
  simp only [caaChecker.CheckFuel]
  rw [hl]
  show (if 0 < rrs.length then _ else _) = _
  rw [if_pos h0]

theorem CheckFuel_no_records_ps (lookup : String → Except String (List RR))
    (ps : String → String) (fuel : Nat) (domain method : String)
    (hl : lookup (stripWildcard domain).2 = Except.ok ([] : List RR))
    (hps : (stripWildcard domain).2 = ps (stripWildcard domain).2) :
    caaChecker.CheckFuel lookup ps (fuel + 1) domain method = some ([], none) := by
  simp only [caaChecker.CheckFuel]
  rw [hl]
  show (if 0 < ([] : List RR).length then _ else _) = _
  have h0 : ¬ 0 < ([] : List RR).length := by simp
  rw [if_neg h0, if_pos hps]

theorem CheckFuel_panic (lookup : String → Except String (List RR))
    (ps : String → String) (fuel : Nat) (domain method : String)
    (hl : lookup (stripWildcard domain).2 = Except.ok ([] : List RR))
    (hps : (stripWildcard domain).2 ≠ ps (stripWildcard domain).2)
    (hbr : breakAtFirst '.' (stripWildcard domain).2.toList = none) :
    caaChecker.CheckFuel lookup ps (fuel + 1) domain method = none := by
  simp only [caaChecker.CheckFuel]
  rw [hl]
  show (if 0 < ([] : List RR).length then _ else _) = _
  have h0 : ¬ 0 < ([] : List RR).length := by simp
  rw [if_neg h0, if_neg hps, hbr]

theorem CheckFuel_recurse (lookup : String → Except String (List RR))
    (ps : String → String) (fuel : Nat) (domain method : String) (lab rest : List Char)
    (hl : lookup (stripWildcard domain).2 = Except.ok ([] : List RR))
    (hps : (stripWildcard domain).2 ≠ ps (stripWildcard domain).2)
    (hbr : breakAtFirst '.' (stripWildcard domain).2.toList = some (lab, rest)) :
    caaChecker.CheckFuel lookup ps (fuel + 1) domain method =
      (match caaChecker.CheckFuel lookup ps fuel (String.mk rest) method with
       | none => none
       | some (_, some e) =>
         some ([], some ("error checking caa record on domain: "
           ++ String.mk rest ++ ", " ++ e))
       | some (parentProbs, none) => some (parentProbs, none)) := by
  simp only [caaChecker.CheckFuel]
  rw [hl]
  show (if 0 < ([] : List RR).length then _ else _) = _
  have h0 : ¬ 0 < ([] : List RR).length := by simp
  rw [if_neg h0, if_neg hps, hbr]

theorem parent_length_lt (domain : String) (lab rest : List Char)
    (hbr : breakAtFirst '.' (stripWildcard domain).2.toList = some (lab, rest)) :
    (String.mk rest).length < domain.length := by
  have h1 : rest.length < (stripWildcard domain).2.toList.length :=
    breakAtFirst_post_length '.' _ lab rest hbr
  have h2 : (stripWildcard domain).2.length ≤ domain.length := stripWildcard_snd_length domain
  rw [string_mk_length]
  rw [← string_length_eq_toList] at h1
  omega

theorem CheckFuel_fuel_congr (lookup : String → Except String (List RR))
    (ps : String → String) :
    ∀ f₁ f₂ (domain method : String), domain.length < f₁ → domain.length < f₂ →
      caaChecker.CheckFuel lookup ps f₁ domain method =
        caaChecker.CheckFuel lookup ps f₂ domain method := by
  intro f₁
  induction f₁ with
  | zero => intro f₂ domain method h1 _; exact absurd h1 (by omega)
  | succ n ih =>
    intro f₂ domain method h1 h2
    cases f₂ with
    | zero => exact absurd h2 (by omega)
    | succ m =>
      cases hl : lookup (stripWildcard domain).2 with
      | error e =>
        rw [CheckFuel_lookup_error lookup ps n domain method e hl,
          CheckFuel_lookup_error lookup ps m domain method e hl]
      | ok rrs =>
        by_cases h0 : 0 < rrs.length
        · rw [CheckFuel_terminal lookup ps n domain method rrs hl h0,
            CheckFuel_terminal lookup ps m domain method rrs hl h0]
        · have hrrs : rrs = [] := by
            cases rrs with
            | nil => rfl
            | cons a b => exact absurd (by simp) h0
          subst hrrs
          by_cases hps : (stripWildcard domain).2 = ps (stripWildcard domain).2
          · rw [CheckFuel_no_records_ps lookup ps n domain method hl hps,
              CheckFuel_no_records_ps lookup ps m domain method hl hps]
          · cases hbr : breakAtFirst '.' (stripWildcard domain).2.toList with
            | none =>
              rw [CheckFuel_panic lookup ps n domain method hl hps hbr,
                CheckFuel_panic lookup ps m domain method hl hps hbr]
            | some pr =>
              obtain ⟨lab, rest⟩ := pr
              rw [CheckFuel_recurse lookup ps n domain method lab rest hl hps hbr,
                CheckFuel_recurse lookup ps m domain method lab rest hl hps hbr]
              have hlt : (String.mk rest).length < domain.length :=
                parent_length_lt domain lab rest hbr
              rw [ih m (String.mk rest) method (by omega) (by omega)]

theorem CheckFuel_method_congr (lookup : String → Except String (List RR))
    (ps : String → String) :
    ∀ fuel (domain m₁ m₂ : String),
      caaChecker.CheckFuel lookup ps fuel domain m₁ =
        caaChecker.CheckFuel lookup ps fuel domain m₂ := by
  intro fuel
  induction fuel with
  | zero => intro domain m₁ m₂; rfl
  | succ n ih =>
    intro domain m₁ m₂
    cases hl : lookup (stripWildcard domain).2 with
    | error e =>
      rw [CheckFuel_lookup_error lookup ps n domain m₁ e hl,
        CheckFuel_lookup_error lookup ps n domain m₂ e hl]
    | ok rrs =>
      by_cases h0 : 0 < rrs.length
      · rw [CheckFuel_terminal lookup ps n domain m₁ rrs hl h0,
          CheckFuel_terminal lookup ps n domain m₂ rrs hl h0]
      · have hrrs : rrs = [] := by
          cases rrs with
          | nil => rfl
          | cons a b => exact absurd (by simp) h0
        subst hrrs
        by_cases hps : (stripWildcard domain).2 = ps (stripWildcard domain).2
        · rw [CheckFuel_no_records_ps lookup ps n domain m₁ hl hps,
            CheckFuel_no_records_ps lookup ps n domain m₂ hl hps]
        · cases hbr : breakAtFirst '.' (stripWildcard domain).2.toList with
          | none =>
            rw [CheckFuel_panic lookup ps n domain m₁ hl hps hbr,
              CheckFuel_panic lookup ps n domain m₂ hl hps hbr]
          | some pr =>
            obtain ⟨lab, rest⟩ := pr
            rw [CheckFuel_recurse lookup ps n domain m₁ lab rest hl hps hbr,
              CheckFuel_recurse lookup ps n domain m₂ lab rest hl hps hbr]
            rw [ih (String.mk rest) m₁ m₂]

theorem CheckFuel_snd_eq_none (lookup : String → Except String (List RR))
    (ps : String → String) :
    ∀ fuel (domain method : String) (res : List Problem × Option String),
      caaChecker.CheckFuel lookup ps fuel domain method = some res → res.2 = none := by
  intro fuel
  induction fuel with
  | zero => intro domain method res h; exact Option.noConfusion h
  | succ n ih =>
    intro domain method res h
    cases hl : lookup (stripWildcard domain).2 with
    | error e =>
      rw [CheckFuel_lookup_error lookup ps n domain method e hl] at h
      obtain rfl := Option.some.inj h
      rfl
    | ok rrs =>
      by_cases h0 : 0 < rrs.length
      · rw [CheckFuel_terminal lookup ps n domain method rrs hl h0] at h
        obtain rfl := Option.some.inj h
        rfl
      · have hrrs : rrs = [] := by
          cases rrs with
          | nil => rfl
          | cons a b => exact absurd (by simp) h0
        subst hrrs
        by_cases hps : (stripWildcard domain).2 = ps (stripWildcard domain).2
        · rw [CheckFuel_no_records_ps lookup ps n domain method hl hps] at h
          obtain rfl := Option.some.inj h
          rfl
        · cases hbr : breakAtFirst '.' (stripWildcard domain).2.toList with
          | none =>
            rw [CheckFuel_panic lookup ps n domain method hl hps hbr] at h
            exact Option.noConfusion h
          | some pr =>
            obtain ⟨lab, rest⟩ := pr
            rw [CheckFuel_recurse lookup ps n domain method lab rest hl hps hbr] at h
            cases hrec : caaChecker.CheckFuel lookup ps n (String.mk rest) method with
            | none => rw [hrec] at h; exact Option.noConfusion h
            | some pr2 =>
              obtain ⟨pp, perr⟩ := pr2
              rw [hrec] at h
              cases perr with
              | some e2 => exact Option.noConfusion (ih (String.mk rest) method (pp, some e2) hrec)
              | none =>
                obtain rfl := Option.some.inj h
                rfl

theorem Check_lookup_error (lookup : String → Except String (List RR))
    (ps : String → String) (domain method e : String)
    (hl : lookup (stripWildcard domain).2 = Except.error e) :
    caaChecker.Check lookup ps domain method =
      some ([dnsLookupFailed (stripWildcard domain).2 ("CAA") e], none) :=
  CheckFuel_lookup_error lookup ps domain.length domain method e hl

theorem Check_terminal (lookup : String → Except String (List RR))
    (ps : String → String) (domain method : String) (rrs : List RR)
    (hl : lookup (stripWildcard domain).2 = Except.ok rrs) (h0 : 0 < rrs.length) :
    caaChecker.Check lookup ps domain method =
      some (terminalCheck (stripWildcard domain).2 (stripWildcard domain).1 rrs, none) :=
  CheckFuel_terminal lookup ps domain.length domain method rrs hl h0

theorem Check_no_records_ps (lookup : String → Except String (List RR))
    (ps : String → String) (domain method : String)
    (hl : lookup (stripWildcard domain).2 = Except.ok ([] : List RR))
    (hps : (stripWildcard domain).2 = ps (stripWildcard domain).2) :
    caaChecker.Check lookup ps domain method = some ([], none) :=
  CheckFuel_no_records_ps lookup ps domain.length domain method hl hps

theorem Check_recurse (lookup : String → Except String (List RR))
    (ps : String → String) (domain method : String) (lab rest : List Char)
    (hl : lookup (stripWildcard domain).2 = Except.ok ([] : List RR))
    (hps : (stripWildcard domain).2 ≠ ps (stripWildcard domain).2)
    (hbr : breakAtFirst '.' (stripWildcard domain).2.toList = some (lab, rest)) :
    caaChecker.Check lookup ps domain method =
      (match caaChecker.Check lookup ps (String.mk rest) method with
       | none => none
       | some (_, some e) =>
         some ([], some ("error checking caa record on domain: "
           ++ String.mk rest ++ ", " ++ e))
       | some (parentProbs, none) => some (parentProbs, none)) := by
  have hlt : (String.mk rest).length < domain.length := parent_length_lt domain lab rest hbr
  have h1 := CheckFuel_recurse lookup ps domain.length domain method lab rest hl hps hbr
  have h2 := CheckFuel_fuel_congr lookup ps domain.length ((String.mk rest).length + 1)
    (String.mk rest) method (by omega) (by omega)
  unfold caaChecker.Check
  rw [h1, h2]

theorem Check_snd_eq_none (lookup : String → Except String (List RR))
    (ps : String → String) (domain method : String) (res : List Problem × Option String)
    (h : caaChecker.Check lookup ps domain method = some res) : res.2 = none :=
  CheckFuel_snd_eq_none lookup ps (domain.length + 1) domain method res h

/-! ## Helper lemmas for the redirect policy -/

theorem checkRedirect_tooMany (req : URL) (via : List URL) (h : 10 ≤ via.length) :
    checkRedirect req via = some (tooManyRedirectsMessage via.length req) := by
  unfold checkRedirect
  rw [if_pos h]

theorem checkRedirectSchemeHost_valid (req : URL)
    (hs : goToLower req.Scheme = "http" ∨ goToLower req.Scheme = "https")
    (hw : goHasSuffix req.Hostname (".well-known") = false) :
    checkRedirectSchemeHost req = none := by
  unfold checkRedirectSchemeHost
  have hcond : ¬ (goToLower req.Scheme ≠ "http" ∧ goToLower req.Scheme ≠ "https") := by
    rcases hs with h | h <;> simp [h]
  rw [if_neg hcond, if_neg (by simp [hw])]

theorem checkRedirect_valid (req : URL) (via : List URL) (hlen : via.length < 10)
    (hv : isValidHop req = true) : checkRedirect req via = none := by
  unfold checkRedirect
  rw [if_neg (by omega)]
  unfold isValidHop at hv
  revert hv
  cases hp : req.Port with
  | none =>
    intro hv
    simp only [Bool.and_eq_true, Bool.or_eq_true, beq_iff_eq, Bool.not_eq_true'] at hv
    exact checkRedirectSchemeHost_valid req hv.1.2 hv.2
  | some p =>
    intro hv
    simp only [Bool.and_eq_true, Bool.or_eq_true, beq_iff_eq, Bool.not_eq_true'] at hv
    obtain ⟨⟨hport, hscheme⟩, hwk⟩ := hv
    show (if goAtoi p ≠ 80 ∧ goAtoi p ≠ 443 then _ else _) = _
    have hpv : ¬ (goAtoi p ≠ 80 ∧ goAtoi p ≠ 443) := by
      rcases hport with h | h <;> simp [h]
    rw [if_neg hpv]
    exact checkRedirectSchemeHost_valid req hscheme hwk

theorem followRedirects_all_valid :
    ∀ (targets made : List URL), (∀ u ∈ targets, isValidHop u = true) →
      made.length + targets.length ≤ 10 → followRedirects made targets = none := by
  intro targets
  induction targets with
  | nil => intro made _ _; rfl
  | cons t rest ih =>
    intro made hv hlen
    simp only [List.length_cons] at hlen
    simp only [followRedirects]
    rw [checkRedirect_valid t made (by omega) (hv t (by simp))]
    exact ih (made ++ [t]) (fun u hu => hv u (by simp [hu])) (by simp; omega)

theorem followRedirects_pass :
    ∀ (pre made ts : List URL), (∀ u ∈ pre, isValidHop u = true) →
      made.length + pre.length ≤ 10 →
      followRedirects made (pre ++ ts) = followRedirects (made ++ pre) ts := by
  intro pre
  induction pre with
  | nil => intro made ts _ _; simp
  | cons p pre' ih =>
    intro made ts hv hlen
    simp only [List.length_cons] at hlen
    have h1 : followRedirects made ((p :: pre') ++ ts) =
        followRedirects (made ++ [p]) (pre' ++ ts) := by
      show (match checkRedirect p made with
            | some e => some e
            | none => followRedirects (made ++ [p]) (pre' ++ ts)) = _
      rw [checkRedirect_valid p made (by omega) (hv p (by simp))]
    rw [h1, ih (made ++ [p]) ts (fun u hu => hv u (by simp [hu])) (by simp; omega)]
    congr 1
    simp

/-! ## String-head distinctness helpers -/

theorem exists_data_cons_append (s t : String) (c : Char)
    (h : ∃ cs, s.data = c :: cs) : ∃ cs, (s ++ t).data = c :: cs := by
  obtain ⟨cs, hcs⟩ := h
  exact ⟨cs ++ t.data, by rw [string_data_append, hcs]; rfl⟩

theorem string_ne_of_head {s t : String} {c d : Char}
    (hs : ∃ cs, s.data = c :: cs) (ht : ∃ ds, t.data = d :: ds) (hcd : c ≠ d) :
    s ≠ t := by
  obtain ⟨cs, hcs⟩ := hs
  obtain ⟨ds, hds⟩ := ht
  intro h
  rw [h, hds] at hcs
  exact hcd (List.head_eq_of_cons_eq hcs.symm)

theorem wellKnownMessage_head (u : URL) :
    ∃ cs, (wellKnownMessage u).data = 'I' :: cs := by
  unfold wellKnownMessage
  apply exists_data_cons_append
  apply exists_data_cons_append
  apply exists_data_cons_append
  exact ⟨("t appears that a redirect was generated by your web server that is missing a trailing ").data, rfl⟩

theorem tooManyRedirectsMessage_head (n : Nat) (u : URL) :
    ∃ cs, (tooManyRedirectsMessage n u).data = 'T' :: cs := by
  unfold tooManyRedirectsMessage
  apply exists_data_cons_append
  apply exists_data_cons_append
  apply exists_data_cons_append
  exact ⟨("oo many (").data, rfl⟩

theorem badPortMessage_head (u : URL) (p : String) :
    ∃ cs, (badPortMessage u p).data = 'B' :: cs := by
  unfold badPortMessage
  apply exists_data_cons_append
  apply exists_data_cons_append
  apply exists_data_cons_append
  exact ⟨("ad port number provided when fetching ").data, rfl⟩

theorem badSchemeMessage_head (u : URL) (s : String) :
    ∃ cs, (badSchemeMessage u s).data = 'B' :: cs := by
  unfold badSchemeMessage
  apply exists_data_cons_append
  apply exists_data_cons_append
  apply exists_data_cons_append
  exact ⟨("ad scheme provided when fetching ").data, rfl⟩

/-! ## Claims -/

/-- C7: `extractIssuerDomain` returns the text of a CAA record value before
the first `;` delimiter, trimmed of surrounding spaces and tabs; on
`"letsencrypt.org; validationmethods=http-01"` it returns exactly
`"letsencrypt.org"`, and on a value containing no `;` it returns the whole
value trimmed. -/
theorem c7_extract_issuer_domain :
    extractIssuerDomain ("letsencrypt.org; validationmethods=http-01") = "letsencrypt.org"
    ∧ (∀ v : String, extractIssuerDomain v =
        goTrimChars [' ', '\t'] (String.mk (v.toList.takeWhile (fun x => x ≠ ';'))))
    ∧ (∀ v : String, ';' ∉ v.toList →
        extractIssuerDomain v = goTrimChars [' ', '\t'] v) := by
  have hmain : ∀ v : String, extractIssuerDomain v =
      goTrimChars [' ', '\t'] (String.mk (v.toList.takeWhile (fun x => x ≠ ';'))) := by
    intro v
    unfold extractIssuerDomain goSplitN2
    cases hbr : breakAtFirst ';' v.toList with
    | none =>
      have hnot : ';' ∉ v.toList := (breakAtFirst_eq_none_iff ';' v.toList).mp hbr
      have hself : v.toList.takeWhile (fun x => x ≠ ';') = v.toList := by
        rw [List.takeWhile_eq_self_iff]
        intro x hx
        simp only [ne_eq, decide_eq_true_eq]
        intro hcon
        exact hnot (hcon ▸ hx)
      rw [hself, string_mk_toList]
      rfl
    | some pr =>
      obtain ⟨pre, post⟩ := pr
      obtain ⟨hpre, -⟩ := breakAtFirst_eq_some ';' v.toList pre post hbr
      rw [hpre]
      rfl
  refine ⟨rfl, hmain, ?_⟩
  intro v hv
  rw [hmain v]
  have hself : v.toList.takeWhile (fun x => x ≠ ';') = v.toList := by
    rw [List.takeWhile_eq_self_iff]
    intro x hx
    simp only [ne_eq, decide_eq_true_eq]
    intro hcon
    exact hv (hcon ▸ hx)
  rw [hself, string_mk_toList]

/-- Witness for C7 at a concrete input with the hypothesis discharged: the
semicolon-free value `"  ca.example.net "` is returned whole, trimmed. -/
theorem c7_extract_issuer_domain_witness :
    extractIssuerDomain ("  ca.example.net ") = goTrimChars [' ', '\t'] ("  ca.example.net ")
    ∧ extractIssuerDomain ("  ca.example.net ") = "ca.example.net" := by
  refine ⟨c7_extract_issuer_domain.2.2 ("  ca.example.net ") (by decide), by decide⟩

/-- C2 counterexample: a record with unknown tag and `Flag = 3` has bit 0 of
its flag set (`3 &&& 1 ≠ 0`), yet the classification loop does not collect
it as an unrecognized-critical directive, because the code tests
`Flag == 1` exactly. -/
theorem c2_flag_three_not_collected :
    (classifyRecords [RR.caa ⟨3, "futuretag", "v", "0 futuretag v"⟩]).2.2 = []
    ∧ (3 : Nat) &&& 1 ≠ 0 := by
  constructor
  · rfl
  · decide

/-- C2 amended: in the CAA Authorization Evaluator, a record whose tag is
not issue, issuewild, or iodef is collected as an unrecognized-critical
directive if and only if its Flag field is exactly 1 (not whenever
`Flag & 1 != 0`); the collected set is precisely the unknown-tag records
with `Flag = 1`, in record order. -/
theorem c2_critical_flag_amended :
    (∀ rrs : List RR, (classifyRecords rrs).2.2 = rrs.filterMap criticalUnknownOf)
    ∧ (∀ (f : Nat) (tag v s : String), tag ≠ "issue" → tag ≠ "issuewild" → tag ≠ "iodef" →
        ((classifyRecords [RR.caa ⟨f, tag, v, s⟩]).2.2 = [⟨f, tag, v, s⟩] ↔ f = 1)) := by
  constructor
  · intro rrs
    rw [classifyRecords_eq]
  · intro f tag v s h1 h2 h3
    constructor
    · intro h
      by_contra hf
      simp [classifyRecords, h1, h2, h3, hf] at h
    · intro hf
      simp [classifyRecords, h1, h2, h3, hf]

/-- Witness for C2 amended at a concrete input: an unknown tag with
`Flag = 1` is collected, discharging the hypotheses. -/
theorem c2_critical_flag_amended_witness :
    (classifyRecords [RR.caa ⟨1, "futuretag", "v", "1 futuretag v"⟩]).2.2 =
      [⟨1, "futuretag", "v", "1 futuretag v"⟩] := by
  exact (c2_critical_flag_amended.2 1 ("futuretag") ("v") ("1 futuretag v")
    (by decide) (by decide) (by decide)).mpr rfl

/-- C3 counterexample: at the terminal lookup level, a record set consisting
of one unknown-tag record with `Flag = 3` — whose critical bit (bit 0) is
set — produces no finding at all: the evaluator returns `([], nil)` rather
than a `CaaCriticalUnknown` finding, because collection requires
`Flag == 1` exactly. -/
theorem c3_flag_three_no_finding :
    caaChecker.Check
      (fun d => if d = "example.com"
        then Except.ok [RR.caa ⟨3, "futuretag", "v", "3 futuretag v"⟩]
        else Except.ok ([] : List RR))
      (fun _ => "com") ("example.com") ("http-01") = some ([], none)
    ∧ (3 : Nat) &&& 1 ≠ 0 := by
  constructor
  · decide
  · decide

/-- C3 amended: for every CAA record set (at the terminal lookup level)
whose unknown-tag records with Flag exactly 1 form a non-empty set, the
evaluator returns exactly one finding, named CaaCriticalUnknown at Fatal
severity, whose Detail lists all such records verbatim, regardless of any
issue or issuewild records also present.  (Records with other flag values —
even ones with bit 0 set, such as `Flag = 3` — are not collected.) -/
theorem c3_critical_unknown_amended :
    ∀ (lookup : String → Except String (List RR)) (ps : String → String)
      (domain method : String) (rrs : List RR) (issue issuewild cu : List CAA),
      lookup (stripWildcard domain).2 = Except.ok rrs →
      0 < rrs.length →
      classifyRecords rrs = (issue, issuewild, cu) →
      cu ≠ [] →
      caaChecker.Check lookup ps domain method =
        some ([caaCriticalUnknown (stripWildcard domain).2 (stripWildcard domain).1 cu], none)
      ∧ (caaCriticalUnknown (stripWildcard domain).2 (stripWildcard domain).1 cu).Name =
          "CaaCriticalUnknown"
      ∧ (caaCriticalUnknown (stripWildcard domain).2 (stripWildcard domain).1 cu).Severity =
          SeverityFatal
      ∧ (caaCriticalUnknown (stripWildcard domain).2 (stripWildcard domain).1 cu).Detail =
          collateRecords cu
      ∧ cu = rrs.filterMap criticalUnknownOf := by
  intro lookup ps domain method rrs issue issuewild cu hl h0 hcls hcu
  refine ⟨?_, rfl, rfl, rfl, ?_⟩
  · rw [Check_terminal lookup ps domain method rrs hl h0]
    simp only [terminalCheck, hcls]
    simp [hcu]
  · have h := classifyRecords_eq rrs
    rw [hcls] at h
    have h2 := congrArg (fun t : List CAA × List CAA × List CAA => t.2.2) h
    simpa using h2

/-- Witness for C3 amended: a concrete record set containing an authorizing
issue record together with an unknown-tag `Flag = 1` record yields exactly
the `CaaCriticalUnknown` finding. -/
theorem c3_critical_unknown_amended_witness :
    caaChecker.Check
      (fun d => if d = "example.com"
        then Except.ok
          [RR.caa ⟨0, "issue", "letsencrypt.org", "0 issue letsencrypt.org"⟩,
           RR.caa ⟨1, "futuretag", "v", "1 futuretag v"⟩]
        else Except.ok ([] : List RR))
      (fun _ => "com") ("example.com") ("http-01") =
      some ([caaCriticalUnknown ("example.com") false [⟨1, "futuretag", "v", "1 futuretag v"⟩]],
        none) := by
  have h := c3_critical_unknown_amended
    (fun d => if d = "example.com"
      then Except.ok
        [RR.caa ⟨0, "issue", "letsencrypt.org", "0 issue letsencrypt.org"⟩,
         RR.caa ⟨1, "futuretag", "v", "1 futuretag v"⟩]
      else Except.ok ([] : List RR))
    (fun _ => "com") ("example.com") ("http-01")
    [RR.caa ⟨0, "issue", "letsencrypt.org", "0 issue letsencrypt.org"⟩,
     RR.caa ⟨1, "futuretag", "v", "1 futuretag v"⟩]
    [⟨0, "issue", "letsencrypt.org", "0 issue letsencrypt.org"⟩] []
    [⟨1, "futuretag", "v", "1 futuretag v"⟩]
    rfl (by decide) rfl (by decide)
  exact h.1

/-- C4 counterexample: when the lookup collaborator fails for
`a.example.com` (whose parents all carry CAA records), `Check` returns the
`dnsLookupFailed` diagnostic with a *nil* evaluator-level error — it does
not propagate a non-nil error — and the returned problem list contains no
parent-level finding, showing recursion stopped at the failed branch. -/
theorem c4_lookup_error_nil_error :
    caaChecker.Check
      (fun d => if d = "a.example.com" then Except.error ("SERVFAIL")
        else Except.ok [RR.caa ⟨0, "issue", "other-ca.example", "0 issue other-ca.example"⟩])
      (fun _ => "com") ("a.example.com") ("http-01") =
      some ([dnsLookupFailed ("a.example.com") ("CAA") ("SERVFAIL")], none) := by
  decide

/-- C4 amended: a lookup error (of any kind) is reported as a
`dnsLookupFailed` diagnostic Problem with a nil evaluator-level error, and
stops recursion for that branch; moreover `Check` never returns a non-nil
evaluator-level error on any input. -/
theorem c4_lookup_error_amended :
    (∀ (lookup : String → Except String (List RR)) (ps : String → String)
       (domain method e : String),
       lookup (stripWildcard domain).2 = Except.error e →
       caaChecker.Check lookup ps domain method =
         some ([dnsLookupFailed (stripWildcard domain).2 ("CAA") e], none))
    ∧ (∀ (lookup : String → Except String (List RR)) (ps : String → String)
        (domain method : String) (res : List Problem × Option String),
        caaChecker.Check lookup ps domain method = some res → res.2 = none) :=
  ⟨Check_lookup_error, Check_snd_eq_none⟩

/-- Witness for C4 amended at a concrete input: a lookup that times out
yields the diagnostic with nil error. -/
theorem c4_lookup_error_amended_witness :
    caaChecker.Check (fun _ => Except.error ("timeout")) (fun d => d)
      ("example.org") ("http-01") =
      some ([dnsLookupFailed ("example.org") ("CAA") ("timeout")], none) :=
  c4_lookup_error_amended.1 (fun _ => Except.error ("timeout")) (fun d => d)
    ("example.org") ("http-01") ("timeout") rfl

/-- C5: applicable-record-set selection at the terminal CAA level: a
non-wildcard query with an empty issue set yields no finding; for a
wildcard query the issuewild set is used when non-empty, otherwise the
issue set; if no record of the selected set has issuer domain
`letsencrypt.org` the evaluator returns `CaaIssuanceNotAllowed` at Fatal
severity with the full applicable set in Detail, and no finding if some
record matches.  (Level is terminal with no unrecognized-critical records,
which would take precedence.) -/
theorem c5_applicable_record_set :
    ∀ (lookup : String → Except String (List RR)) (ps : String → String)
      (domain method : String) (rrs : List RR) (issue issuewild : List CAA),
      lookup (stripWildcard domain).2 = Except.ok rrs →
      0 < rrs.length →
      classifyRecords rrs = (issue, issuewild, []) →
      (((stripWildcard domain).1 = false → issue = [] →
          caaChecker.Check lookup ps domain method = some ([], none))
        ∧ (∀ records : List CAA,
            records = (if (stripWildcard domain).1 = true ∧ issuewild ≠ []
              then issuewild else issue) →
            ((stripWildcard domain).1 = true ∨ issue ≠ []) →
            ((records.any (fun r => extractIssuerDomain r.Value == "letsencrypt.org") = true →
                caaChecker.Check lookup ps domain method = some ([], none))
              ∧ (records.any (fun r => extractIssuerDomain r.Value == "letsencrypt.org") = false →
                  caaChecker.Check lookup ps domain method =
                    some ([caaIssuanceNotAllowed (stripWildcard domain).2
                      (stripWildcard domain).1 records], none)
                  ∧ (caaIssuanceNotAllowed (stripWildcard domain).2
                      (stripWildcard domain).1 records).Name = "CaaIssuanceNotAllowed"
                  ∧ (caaIssuanceNotAllowed (stripWildcard domain).2
                      (stripWildcard domain).1 records).Severity = SeverityFatal
                  ∧ (caaIssuanceNotAllowed (stripWildcard domain).2
                      (stripWildcard domain).1 records).Detail = collateRecords records)))) := by
  intro lookup ps domain method rrs issue issuewild hl h0 hcls
  have hterm := Check_terminal lookup ps domain method rrs hl h0
  constructor
  · intro hw hiss
    rw [hterm]
    simp only [terminalCheck, hcls]
    simp [hw, hiss]
  · intro records hrec hor
    have hcond2 : ¬ (issue = [] ∧ (stripWildcard domain).1 = false) := by
      rcases hor with h | h
      · simp [h]
      · simp [h]
    constructor
    · intro hany
      rw [hterm]
      simp only [terminalCheck, hcls]
      simp only [ne_eq, not_true_eq_false, if_neg (by simp : ¬ ([] : List CAA) ≠ [])]
      rw [if_neg hcond2, ← hrec]
      simp [hany]
    · intro hany
      refine ⟨?_, rfl, rfl, rfl⟩
      rw [hterm]
      simp only [terminalCheck, hcls]
      simp only [ne_eq, not_true_eq_false, if_neg (by simp : ¬ ([] : List CAA) ≠ [])]
      rw [if_neg hcond2, ← hrec]
      simp [hany]

/-- Witness for C5 at a concrete input: for the wildcard query
`*.example.com`, an issuewild record naming another CA overrides an issue
record naming letsencrypt.org, producing `CaaIssuanceNotAllowed`. -/
theorem c5_applicable_record_set_witness :
    caaChecker.Check
      (fun d => if d = "example.com"
        then Except.ok
          [RR.caa ⟨0, "issue", "letsencrypt.org", "0 issue letsencrypt.org"⟩,
           RR.caa ⟨0, "issuewild", "other-ca.example", "0 issuewild other-ca.example"⟩]
        else Except.ok ([] : List RR))
      (fun _ => "com") ("*.example.com") ("http-01") =
      some ([caaIssuanceNotAllowed ("example.com") true
        [⟨0, "issuewild", "other-ca.example", "0 issuewild other-ca.example"⟩]], none) := by
  have h := c5_applicable_record_set
    (fun d => if d = "example.com"
      then Except.ok
        [RR.caa ⟨0, "issue", "letsencrypt.org", "0 issue letsencrypt.org"⟩,
         RR.caa ⟨0, "issuewild", "other-ca.example", "0 issuewild other-ca.example"⟩]
      else Except.ok ([] : List RR))
    (fun _ => "com") ("*.example.com") ("http-01")
    [RR.caa ⟨0, "issue", "letsencrypt.org", "0 issue letsencrypt.org"⟩,
     RR.caa ⟨0, "issuewild", "other-ca.example", "0 issuewild other-ca.example"⟩]
    [⟨0, "issue", "letsencrypt.org", "0 issue letsencrypt.org"⟩]
    [⟨0, "issuewild", "other-ca.example", "0 issuewild other-ca.example"⟩]
    rfl (by decide) rfl
  exact ((h.2 [⟨0, "issuewild", "other-ca.example", "0 issuewild other-ca.example"⟩]
    (by decide) (Or.inl (by decide))).2 (by decide)).1

/-- C10: the authorized issuer is fixed: at a terminal level with no
unrecognized-critical records and an applicable restriction, the evaluator
returns no finding if and only if some record of the selected set extracts
to exactly the literal `letsencrypt.org`; and `Check` is invariant in its
`method` parameter, its only remaining input besides the collaborators and
the domain — no parameter selects a different issuer. -/
theorem c10_fixed_issuer_domain :
    (∀ (d : String) (w : Bool) (rrs : List RR) (issue issuewild : List CAA),
       classifyRecords rrs = (issue, issuewild, []) →
       (w = true ∨ issue ≠ []) →
       (terminalCheck d w rrs = [] ↔
         ∃ r ∈ (if w = true ∧ issuewild ≠ [] then issuewild else issue),
           extractIssuerDomain r.Value = "letsencrypt.org"))
    ∧ (∀ (lookup : String → Except String (List RR)) (ps : String → String)
        (domain m₁ m₂ : String),
        caaChecker.Check lookup ps domain m₁ = caaChecker.Check lookup ps domain m₂) := by
  constructor
  · intro d w rrs issue issuewild hcls hor
    have hcond2 : ¬ (issue = [] ∧ w = false) := by
      rcases hor with h | h
      · simp [h]
      · simp [h]
    simp only [terminalCheck, hcls]
    simp only [ne_eq, not_true_eq_false, if_neg (by simp : ¬ ([] : List CAA) ≠ [])]
    rw [if_neg hcond2]
    by_cases hany : ((if w = true ∧ issuewild ≠ [] then issuewild else issue).any
        (fun r => extractIssuerDomain r.Value == "letsencrypt.org")) = true
    · rw [if_pos hany]
      constructor
      · intro _
        obtain ⟨r, hr, hre⟩ := List.any_eq_true.mp hany
        exact ⟨r, hr, by simpa using hre⟩
      · intro _
        rfl
    · rw [if_neg hany]
      constructor
      · intro hcontra
        exact absurd hcontra (by simp)
      · intro hex
        obtain ⟨r, hr, hre⟩ := hex
        exact absurd (List.any_eq_true.mpr ⟨r, hr, by simpa using hre⟩) hany
  · intro lookup ps domain m₁ m₂
    exact CheckFuel_method_congr lookup ps (domain.length + 1) domain m₁ m₂

/-- Witness for C10 at a concrete input: a terminal set whose only issue
record extracts to `letsencrypt.org` authorizes issuance (no finding), and
`Check` gives the same result under two different method parameters. -/
theorem c10_fixed_issuer_domain_witness :
    terminalCheck ("example.com") false
      [RR.caa ⟨0, "issue", "letsencrypt.org; validationmethods=http-01",
        "0 issue letsencrypt.org"⟩] = []
    ∧ caaChecker.Check (fun _ => Except.ok ([] : List RR)) (fun d => d)
        ("example.com") ("http-01") =
      caaChecker.Check (fun _ => Except.ok ([] : List RR)) (fun d => d)
        ("example.com") ("tls-alpn-01") := by
  constructor
  · exact (c10_fixed_issuer_domain.1 ("example.com") false
      [RR.caa ⟨0, "issue", "letsencrypt.org; validationmethods=http-01",
        "0 issue letsencrypt.org"⟩]
      [⟨0, "issue", "letsencrypt.org; validationmethods=http-01", "0 issue letsencrypt.org"⟩]
      [] rfl (Or.inr (by decide))).mpr
      ⟨⟨0, "issue", "letsencrypt.org; validationmethods=http-01", "0 issue letsencrypt.org"⟩,
        by decide, by decide⟩
  · exact c10_fixed_issuer_domain.2 (fun _ => Except.ok ([] : List RR)) (fun d => d)
      ("example.com") ("http-01") ("tls-alpn-01")

theorem CheckFuel_all_empty (lookup : String → Except String (List RR))
    (ps : String → String) (method : String)
    (hps : ∀ d : String, breakAtFirst '.' d.toList = none → ps d = d) :
    ∀ fuel (domain : String), domain.length < fuel →
      (∀ d ∈ caaQueryChain ps fuel domain, lookup d = Except.ok ([] : List RR)) →
      caaChecker.CheckFuel lookup ps fuel domain method = some ([], none) := by
  intro fuel
  induction fuel with
  | zero => intro domain h _; exact absurd h (by omega)
  | succ n ih =>
    intro domain hlen hall
    have hmem : (stripWildcard domain).2 ∈ caaQueryChain ps (n + 1) domain := by
      simp only [caaQueryChain]
      exact List.mem_cons_self _ _
    have hl : lookup (stripWildcard domain).2 = Except.ok [] := hall _ hmem
    by_cases hps' : (stripWildcard domain).2 = ps (stripWildcard domain).2
    · exact CheckFuel_no_records_ps lookup ps n domain method hl hps'
    · cases hbr : breakAtFirst '.' (stripWildcard domain).2.toList with
      | none => exact absurd (hps _ hbr).symm hps'
      | some pr =>
        obtain ⟨lab, rest⟩ := pr
        rw [CheckFuel_recurse lookup ps n domain method lab rest hl hps' hbr]
        have hlt : (String.mk rest).length < domain.length :=
          parent_length_lt domain lab rest hbr
        have htail : ∀ d ∈ caaQueryChain ps n (String.mk rest),
            lookup d = Except.ok ([] : List RR) := by
          intro d hd
          apply hall
          simp only [caaQueryChain]
          refine List.mem_cons_of_mem _ ?_
          rw [if_neg hps', hbr]
          exact hd
        rw [ih (String.mk rest) (by omega) htail]

/-- C6: for every domain whose lookups return zero CAA records at every
level the evaluator can visit (up to the public-suffix boundary), `Check`
returns an empty finding list with nil error; and the evaluation at a level
is fully determined without recursion when records exist there (terminal)
or when the stripped domain equals its public suffix, while a level with no
records and a domain different from its public suffix evaluates exactly by
recursing on the parent obtained by dropping the leftmost label.  (The
public-suffix collaborator is assumed to map a dotless name to itself,
which the real collaborator guarantees; the Go code would panic
otherwise.) -/
theorem c6_permissive_default :
    (∀ (lookup : String → Except String (List RR)) (ps : String → String)
       (domain method : String),
       (∀ d : String, breakAtFirst '.' d.toList = none → ps d = d) →
       (∀ d ∈ caaQueryChain ps (domain.length + 1) domain,
         lookup d = Except.ok ([] : List RR)) →
       caaChecker.Check lookup ps domain method = some ([], none))
    ∧ (∀ (lookup : String → Except String (List RR)) (ps : String → String)
        (domain method : String) (rrs : List RR),
        lookup (stripWildcard domain).2 = Except.ok rrs → 0 < rrs.length →
        caaChecker.Check lookup ps domain method =
          some (terminalCheck (stripWildcard domain).2 (stripWildcard domain).1 rrs, none))
    ∧ (∀ (lookup : String → Except String (List RR)) (ps : String → String)
        (domain method : String),
        lookup (stripWildcard domain).2 = Except.ok ([] : List RR) →
        (stripWildcard domain).2 = ps (stripWildcard domain).2 →
        caaChecker.Check lookup ps domain method = some ([], none))
    ∧ (∀ (lookup : String → Except String (List RR)) (ps : String → String)
        (domain method : String) (lab rest : List Char),
        lookup (stripWildcard domain).2 = Except.ok ([] : List RR) →
        (stripWildcard domain).2 ≠ ps (stripWildcard domain).2 →
        breakAtFirst '.' (stripWildcard domain).2.toList = some (lab, rest) →
        caaChecker.Check lookup ps domain method =
          (match caaChecker.Check lookup ps (String.mk rest) method with
           | none => none
           | some (_, some e) =>
             some ([], some ("error checking caa record on domain: "
               ++ String.mk rest ++ ", " ++ e))
           | some (parentProbs, none) => some (parentProbs, none))) :=
  ⟨fun lookup ps domain method hps hall =>
     CheckFuel_all_empty lookup ps method hps (domain.length + 1) domain (by omega) hall,
   Check_terminal, Check_no_records_ps, Check_recurse⟩

/-- Witness for C6 at a concrete input: with empty lookups everywhere and a
public-suffix collaborator that keeps dotless names fixed, checking
`a.b.example.com` yields no findings. -/
theorem c6_permissive_default_witness :
    caaChecker.Check (fun _ => Except.ok ([] : List RR))
      (fun d => if '.' ∈ d.toList then "com" else d)
      ("a.b.example.com") ("http-01") = some ([], none) := by
  exact c6_permissive_default.1 (fun _ => Except.ok ([] : List RR))
    (fun d => if '.' ∈ d.toList then "com" else d) ("a.b.example.com") ("http-01")
    (fun d h => by
      have hn : '.' ∉ d.data := (breakAtFirst_eq_none_iff '.' d.toList).mp h
      simp [hn])
    (fun d _ => rfl)

/-- C1 counterexample: a redirect chain of exactly 10 otherwise-valid hops
does NOT succeed: the policy fires at the 10th hop, because at that point
`via` already holds 10 requests (the initial one plus 9 accepted
redirects) and the callback rejects whenever `len(via) >= 10`. -/
theorem c1_ten_hop_chain_fails :
    isValidHop ⟨"http", "example.com", none, "http://example.com/x"⟩ = true
    ∧ runChain ⟨"http", "example.com", none, "http://example.com/start"⟩
        (List.replicate 10 ⟨"http", "example.com", none, "http://example.com/x"⟩) =
      some (tooManyRedirectsMessage 10 ⟨"http", "example.com", none, "http://example.com/x"⟩) := by
  constructor
  · decide
  · decide

/-- C1 amended: a redirect chain of exactly 9 otherwise-valid hops
succeeds, and a 10th hop fails with the "too many redirects" message whose
text names the 10th target URL; equivalently, the redirect callback
rejects a hop with that message if and only if at least 10 requests (the
initial request plus 9 redirects) have already been made when the hop is
attempted, i.e. `len(via) >= 10`. -/
theorem c1_redirect_limit_amended :
    ∀ (init t : URL) (rest pre : List URL),
      pre.length = 9 →
      (∀ u ∈ pre, isValidHop u = true) →
      runChain init pre = none
      ∧ runChain init (pre ++ t :: rest) = some (tooManyRedirectsMessage 10 t)
      ∧ (∀ (req : URL) (via : List URL), 10 ≤ via.length →
          checkRedirect req via = some (tooManyRedirectsMessage via.length req))
      ∧ (∀ (req : URL) (via : List URL), via.length < 10 → isValidHop req = true →
          checkRedirect req via = none) := by
  intro init t rest pre hlen hv
  refine ⟨?_, ?_, checkRedirect_tooMany, checkRedirect_valid⟩
  · exact followRedirects_all_valid pre [init] hv (by simp [hlen])
  · have hL : ([init] ++ pre).length = 10 := by simp [hlen]
    show followRedirects [init] (pre ++ t :: rest) = _
    rw [followRedirects_pass pre [init] (t :: rest) hv (by simp [hlen])]
    show (match checkRedirect t ([init] ++ pre) with
          | some e => some e
          | none => followRedirects (([init] ++ pre) ++ [t]) rest) = _
    rw [checkRedirect_tooMany t ([init] ++ pre) (by omega)]
    rw [hL]

/-- Witness for C1 amended at a concrete input: nine identical valid hops
succeed and a tenth hop (to a different URL) fails with the message naming
that tenth target. -/
theorem c1_redirect_limit_amended_witness :
    runChain ⟨"http", "example.com", none, "http://example.com/start"⟩
      (List.replicate 9 ⟨"http", "example.com", none, "http://example.com/x"⟩) = none
    ∧ runChain ⟨"http", "example.com", none, "http://example.com/start"⟩
        (List.replicate 9 ⟨"http", "example.com", none, "http://example.com/x"⟩ ++
          ⟨"https", "example.com", none, "https://example.com/y"⟩ :: []) =
      some (tooManyRedirectsMessage 10
        ⟨"https", "example.com", none, "https://example.com/y"⟩) := by
  have h := c1_redirect_limit_amended
    ⟨"http", "example.com", none, "http://example.com/start"⟩
    ⟨"https", "example.com", none, "https://example.com/y"⟩ []
    (List.replicate 9 ⟨"http", "example.com", none, "http://example.com/x"⟩)
    (by decide)
    (fun u hu => by
      rw [List.eq_of_mem_replicate hu]
      decide)
  exact ⟨h.1, h.2.1⟩

/-- C8: a redirect to a URL whose hostname ends with the literal suffix
`.well-known` (and violates no earlier check) is rejected with the specific
trailing-slash-misconfiguration message, which contains the offending URL;
carried through `translateHTTPError`, it becomes the `BadRedirect` Problem
whose Detail is exactly that specific message, and the message differs from
every redirect-count, bad-port and bad-scheme policy message, so the
diagnostic is distinguishable from the generic bad-redirect outcomes. -/
theorem c8_well_known_redirect :
    ∀ (req : URL) (via : List URL) (domain : String) (address : IPAddr),
      via.length < 10 →
      (∀ p, req.Port = some p → goAtoi p = 80 ∨ goAtoi p = 443) →
      (goToLower req.Scheme = "http" ∨ goToLower req.Scheme = "https") →
      goHasSuffix req.Hostname (".well-known") = true →
      checkRedirect req via = some (wellKnownMessage req)
      ∧ wellKnownMessage req =
          "It appears that a redirect was generated by your web server that is missing a trailing "
            ++ "slash after your domain name: " ++ req.Str
            ++ ". Check your web server configuration and .htaccess for Redirect/RedirectMatch/RewriteRule."
      ∧ translateHTTPError domain address (GoError.redirect (wellKnownMessage req)) =
          badRedirect domain (wellKnownMessage req)
      ∧ (badRedirect domain (wellKnownMessage req)).Name = "BadRedirect"
      ∧ (badRedirect domain (wellKnownMessage req)).Detail = wellKnownMessage req
      ∧ (∀ (n : Nat) (u : URL), wellKnownMessage req ≠ tooManyRedirectsMessage n u)
      ∧ (∀ (u : URL) (p : String), wellKnownMessage req ≠ badPortMessage u p)
      ∧ (∀ (u : URL) (s : String), wellKnownMessage req ≠ badSchemeMessage u s) := by
  intro req via domain address hlen hport hscheme hwk
  refine ⟨?_, rfl, rfl, rfl, rfl, ?_, ?_, ?_⟩
  · unfold checkRedirect
    rw [if_neg (by omega)]
    cases hp : req.Port with
    | none =>
      unfold checkRedirectSchemeHost
      rw [if_neg (by rcases hscheme with h | h <;> simp [h]), if_pos hwk]
    | some p =>
      show (if goAtoi p ≠ 80 ∧ goAtoi p ≠ 443 then _ else _) = _
      rw [if_neg (by rcases hport p hp with h | h <;> simp [h])]
      unfold checkRedirectSchemeHost
      rw [if_neg (by rcases hscheme with h | h <;> simp [h]), if_pos hwk]
  · intro n u
    exact string_ne_of_head (wellKnownMessage_head req)
      (tooManyRedirectsMessage_head n u) (by decide)
  · intro u p
    exact string_ne_of_head (wellKnownMessage_head req)
      (badPortMessage_head u p) (by decide)
  · intro u s
    exact string_ne_of_head (wellKnownMessage_head req)
      (badSchemeMessage_head u s) (by decide)

/-- Witness for C8 at a concrete input: a redirect to
`http://example.com.well-known/...` is rejected with the trailing-slash
message, and the resulting `BadRedirect` Problem carries it verbatim. -/
theorem c8_well_known_redirect_witness :
    checkRedirect ⟨"http", "example.com.well-known", none,
        "http://example.com.well-known/.well-known/acme-challenge/tok"⟩ [] =
      some (wellKnownMessage ⟨"http", "example.com.well-known", none,
        "http://example.com.well-known/.well-known/acme-challenge/tok"⟩)
    ∧ (badRedirect ("example.com") (wellKnownMessage ⟨"http", "example.com.well-known", none,
        "http://example.com.well-known/.well-known/acme-challenge/tok"⟩)).Detail =
      wellKnownMessage ⟨"http", "example.com.well-known", none,
        "http://example.com.well-known/.well-known/acme-challenge/tok"⟩ := by
  have h := c8_well_known_redirect
    ⟨"http", "example.com.well-known", none,
      "http://example.com.well-known/.well-known/acme-challenge/tok"⟩ []
    ("example.com") ⟨"192.0.2.1", false⟩
    (by decide)
    (fun p hp => Option.noConfusion hp)
    (Or.inl (by decide))
    (by decide)
  exact ⟨h.1, h.2.2.2.2.1⟩

/-- C9: `checkHTTP` captures whatever partial response was obtained into
the result before evaluating any error: whenever a response exists
alongside an error, the returned `httpCheckResult` has `StatusCode` and
`ServerHeader` populated from that response, and this populated result is
returned together with the classified failure diagnostic (for a rejected
redirect, the `BadRedirect` Problem carrying the recovered policy
message). -/
theorem c9_partial_response_captured :
    ∀ (domain : String) (address : IPAddr) (r : HTTPResponse) (e redirErr : String),
      checkHTTP domain address ⟨some r, some e, redirErr⟩ =
        ({ StatusCode := r.StatusCode, ServerHeader := r.Server, IP := address },
          translateHTTPError domain address
            (if redirErr ≠ "" then GoError.redirect redirErr else GoError.transport e))
      ∧ (checkHTTP domain address ⟨some r, some e, redirErr⟩).1.StatusCode = r.StatusCode
      ∧ (checkHTTP domain address ⟨some r, some e, redirErr⟩).1.ServerHeader = r.Server
      ∧ (redirErr ≠ "" →
          (checkHTTP domain address ⟨some r, some e, redirErr⟩).2 =
            badRedirect domain redirErr) := by
  intro domain address r e redirErr
  refine ⟨rfl, rfl, rfl, ?_⟩
  intro h
  show translateHTTPError domain address
    (if redirErr ≠ "" then GoError.redirect redirErr else GoError.transport e) = _
  rw [if_pos h]
  rfl

/-- Witness for C9 at a concrete input: a valid 302 response followed by a
rejected redirect still yields a result populated with the status code and
Server header, alongside the `BadRedirect` diagnostic. -/
theorem c9_partial_response_captured_witness :
    checkHTTP ("example.org") ⟨"192.0.2.7", false⟩
      ⟨some ⟨302, "nginx"⟩, some ("Get \"x\": policy violation"), "policy violation"⟩ =
      ({ StatusCode := 302, ServerHeader := "nginx", IP := ⟨"192.0.2.7", false⟩ },
        translateHTTPError ("example.org") ⟨"192.0.2.7", false⟩
          (GoError.redirect ("policy violation")))
    ∧ (checkHTTP ("example.org") ⟨"192.0.2.7", false⟩
        ⟨some ⟨302, "nginx"⟩, some ("Get \"x\": policy violation"), "policy violation"⟩).2 =
      badRedirect ("example.org") ("policy violation") := by
  have h := c9_partial_response_captured ("example.org") ⟨"192.0.2.7", false⟩
    ⟨302, "nginx"⟩ ("Get \"x\": policy violation") ("policy violation")
  refine ⟨?_, h.2.2.2 (by decide)⟩
  have h1 := h.1
  rwa [if_pos (by decide : ("policy violation" : String) ≠ "")] at h1
